import Mathlib

/-!
Verification development for the SecureEdge network-diagnostics tool
(`NetworkTool/networktool.py`).

The Python source is shallowly embedded: each operation becomes a pure
Lean function over an explicit environment record that supplies the
outcomes of the I/O actions the code performs (name resolution, TCP
connect results, subprocess outcomes, byte-counter snapshots).  Python
integers are modelled as `Int`/`Nat`, float-valued timeouts and
durations as `Rat`.  Printed messages that carry semantic content
(error signals, advisories, per-port output) are modelled as explicit
event lists so that distinct reporting paths stay distinguishable.
-/

namespace NetworkTool

/-! ## Port scan engine (`scan_ports`, `_scan_single_port`, `_handle_scan`) -/

/-- Environment for the scanner: `resolve` models `socket.gethostbyname`
(`none` = exception), `connectEx` models `sock.connect_ex((ip, port))`
after `sock.settimeout(timeout)` (`0` = connection established, any
other value = refused / timed out / network error; an exception inside
`_scan_single_port` behaves like a nonzero code since both yield `None`). -/
structure ScanEnv where
  resolve : String → Option String
  connectEx : String → Int → Rat → Int

/-- Messages printed by `scan_ports` that carry semantic content. -/
inductive ScanEvent
  | couldNotResolve (host : String)
  | scanningBanner (host ip : String) (startPort endPort : Int) (concurrency : Nat)
  | portOpen (p : Int)
deriving DecidableEq, Repr

/-- Embedding of `_scan_single_port`: returns the port if
`connect_ex` yields `0`, otherwise `None`. -/
def scanSinglePort (env : ScanEnv) (ip : String) (port : Int) (timeout : Rat) : Option Int :=
  if env.connectEx ip port timeout = 0 then some port else none

/-- The inclusive port range `range(start_port, end_port + 1)` that
`scan_ports` submits to the executor, one unit of work per port. -/
def portList (s e : Int) : List Int :=
  (List.range (e + 1 - s).toNat).map (fun i : Nat => s + (i : Int))

/-- Value produced by one run of `scan_ports`: the returned list, the
ports submitted to the worker pool, and the printed events. -/
structure ScanOutput where
  openPorts : List Int
  submitted : List Int
  events : List ScanEvent
deriving DecidableEq, Repr

/-- Embedding of `scan_ports`.  The thread pool is abstracted by
`order`, the completion order in which `as_completed` yields the
futures (a permutation of the submitted range); `concurrency` is
`max_workers`, which only influences scheduling, never which futures
exist or what each returns.  The uninterrupted execution is modelled
(no `KeyboardInterrupt`).  Results are collected in completion order
and the function returns `sorted(open_ports)`. -/
def scanPorts (env : ScanEnv) (host : String) (s e : Int) (timeout : Rat)
    (concurrency : Nat) (order : List Int) : ScanOutput :=
  match env.resolve host with
  | none => { openPorts := [], submitted := [], events := [.couldNotResolve host] }
  | some ip =>
      { openPorts := List.insertionSort (· ≤ ·)
          (order.filterMap (fun p => scanSinglePort env ip p timeout))
        submitted := portList s e
        events := .scanningBanner host ip s e concurrency ::
          (order.filterMap (fun p => scanSinglePort env ip p timeout)).map .portOpen }

/-- Outcome of the interactive scan handler `_handle_scan`. -/
inductive HandleScanOutcome
  | noHost
  | badInt
  | invalidRange
  | completed (out : ScanOutput)
deriving DecidableEq, Repr

/-- Embedding of `_handle_scan`.  `host` is the stripped input;
`parsed` is `some (start, end)` when both `int(...)` calls succeed and
`none` when one raises `ValueError`.  The range check `start < 0 or
end < start` rejects before `scan_ports` is ever invoked; on the valid
path `scan_ports` runs with its default `timeout=0.5`,
`concurrency=100`. -/
def handleScan (env : ScanEnv) (host : String) (parsed : Option (Int × Int))
    (order : List Int) : HandleScanOutcome :=
  if host = "" then .noHost
  else
    match parsed with
    | none => .badInt
    | some (s, e) =>
        if s < 0 ∨ e < s then .invalidRange
        else .completed (scanPorts env host s e (1 / 2 : Rat) 100 order)

/-- The ports a handler outcome actually handed to the worker pool. -/
def HandleScanOutcome.scheduled : HandleScanOutcome → List Int
  | .completed out => out.submitted
  | _ => []

/-- The open-port list a handler outcome carries. -/
def HandleScanOutcome.result : HandleScanOutcome → List Int
  | .completed out => out.openPorts
  | _ => []

/-! ## Traffic sampler (`get_network_traffic`) -/

/-- One `psutil.net_io_counters()` snapshot (cumulative, non-negative). -/
structure Counters where
  bytesSent : Nat
  bytesRecv : Nat
deriving DecidableEq, Repr

/-- Environment for the sampler: whether the `psutil` import succeeded,
and the two counter snapshots taken before and after the sleep. -/
structure TrafficEnv where
  hasPsutil : Bool
  before : Counters
  after : Counters

/-- Advisory messages printed by `get_network_traffic`. -/
inductive TrafficEvent
  | psutilMissingAdvisory
  | psutilInstallHint
deriving DecidableEq, Repr

/-- Embedding of `get_network_traffic`: without psutil it prints the
two advisories and returns `(0, 0)`; otherwise it sleeps for
`duration` and returns the plain differences
`after.bytes_sent - before.bytes_sent`,
`after.bytes_recv - before.bytes_recv` (Python `int` subtraction,
modelled in `Int`). -/
def getNetworkTraffic (env : TrafficEnv) (duration : Rat) : (Int × Int) × List TrafficEvent :=
  if env.hasPsutil = false then
    ((0, 0), [.psutilMissingAdvisory, .psutilInstallHint])
  else
    (((env.after.bytesSent : Int) - (env.before.bytesSent : Int),
      (env.after.bytesRecv : Int) - (env.before.bytesRecv : Int)), [])

/-! ## Reachability probe (`ping_host`) -/

/-- Outcome of the `subprocess.run(cmd, ..., timeout=timeout, check=True)`
call, covering exactly the exception classes `ping_host` handles. -/
inductive PingRunOutcome
  | ok
  | calledProcessError
  | timedOut
  | fileNotFound
deriving DecidableEq, Repr

/-- Environment for the prober: the platform name
(`platform.system().lower()`), the subprocess outcome as a function of
the command line and the timeout handed to `subprocess.run`, and the
result of the fallback `socket.create_connection((host, 80), timeout=1)`. -/
structure PingEnv where
  system : String
  run : List String → Rat → PingRunOutcome
  tcpConnectOk : String → Nat → Rat → Bool

/-- The ping command line built by `ping_host`. -/
def pingCmd (system : String) (count : Nat) (host : String) : List String :=
  if system = "windows" then ["ping", "-n", toString count, host]
  else ["ping", "-c", toString count, host]

/-- The kind of network probe `ping_host` issues. -/
inductive ProbeKind
  | systemPing
  | tcpFallback
deriving DecidableEq, Repr

/-- Embedding of `ping_host`, returning the boolean result together
with the list of probes issued, each paired with the wall-clock
timeout applied to it.  On `FileNotFoundError` the code falls back to
a TCP connection to port 80 with the literal timeout `1`. -/
def pingHost (env : PingEnv) (host : String) (timeout : Rat) (count : Nat) :
    Bool × List (ProbeKind × Rat) :=
  let cmd := pingCmd env.system count host
  match env.run cmd timeout with
  | .ok => (true, [(.systemPing, timeout)])
  | .calledProcessError => (false, [(.systemPing, timeout)])
  | .timedOut => (false, [(.systemPing, timeout)])
  | .fileNotFound =>
      if env.tcpConnectOk host 80 1 then (true, [(.systemPing, timeout), (.tcpFallback, 1)])
      else (false, [(.systemPing, timeout), (.tcpFallback, 1)])

/-! ## Neighbor discovery (`discover_devices`)

The two regular expressions of `discover_devices` are embedded as
deterministic matchers over `List Char`.  Both patterns are
backtracking-free once the greedy semantics of Python `re` is unfolded:
every repeated character class is followed by a character outside that
class, so a greedy engine necessarily consumes the maximal run, and in
a MAC group `[0-9a-fA-F]{1,2}` followed by a delimiter the two-digit
and one-digit alternatives are mutually exclusive (a delimiter is never
a hex digit).  The only genuine backtracking is the leading greedy `.*`
before `\(` in the Linux/macOS pattern, which tries candidate `(`
positions from the rightmost leftwards; `matchLinuxChars` mirrors that
search order.  Lines produced by `splitlines()` contain no newline, so
`.` matches any character of the line. -/

/-- Character class `[0-9a-fA-F]` (by ASCII code). -/
def isHexDigitChar (c : Char) : Bool :=
  (48 ≤ c.toNat && c.toNat ≤ 57) || (97 ≤ c.toNat && c.toNat ≤ 102) ||
    (65 ≤ c.toNat && c.toNat ≤ 70)

/-- Character class `[\d\.]` used for the `ip` capture groups. -/
def isIpChar (c : Char) : Bool :=
  (48 ≤ c.toNat && c.toNat ≤ 57) || c = '.'

/-- Python `\s` over ASCII: space, tab, newline, vertical tab, form
feed, carriage return. -/
def isPySpace (c : Char) : Bool :=
  c = ' ' || c = '\t' || c = '\n' || c = Char.ofNat 11 || c = Char.ofNat 12 || c = '\r'

/-- Delimiter class `[:-]` of the Linux/macOS MAC pattern. -/
def linuxDelim (c : Char) : Bool := c = ':' || c = '-'

/-- Delimiter class `-` of the Windows MAC pattern. -/
def winDelim (c : Char) : Bool := c = '-'

/-- Greedy `class+`: the maximal nonempty run of characters satisfying
`p`, failing when the run is empty. -/
def takeWhile1 (p : Char → Bool) (cs : List Char) : Option (List Char × List Char) :=
  if (cs.takeWhile p).isEmpty then none else some (cs.takeWhile p, cs.dropWhile p)

/-- A single literal character. -/
def expectChar (c : Char) : List Char → Option (List Char)
  | [] => none
  | x :: rest => if x = c then some rest else none

/-- One `[0-9a-fA-F]{1,2}[:-]` unit: greedily two hex digits then a
delimiter, else one hex digit then a delimiter.  The consumed
characters (digits and delimiter) are returned verbatim. -/
def parseGroupDelim (isDelim : Char → Bool) (cs : List Char) : Option (List Char × List Char) :=
  match cs with
  | a :: b :: c :: rest =>
      if isHexDigitChar a && isHexDigitChar b && isDelim c then some ([a, b, c], rest)
      else if isHexDigitChar a && isDelim b then some ([a, b], c :: rest)
      else none
  | [a, b] =>
      if isHexDigitChar a && isDelim b then some ([a, b], []) else none
  | _ => none

/-- The final `[0-9a-fA-F]{1,2}` group: greedily two hex digits, else
one (the trailing `.*` of both patterns never fails, so nothing
constrains this choice from the right). -/
def parseFinalGroup (cs : List Char) : Option (List Char × List Char) :=
  match cs with
  | a :: b :: rest =>
      if isHexDigitChar a && isHexDigitChar b then some ([a, b], rest)
      else if isHexDigitChar a then some ([a], b :: rest)
      else none
  | [a] => if isHexDigitChar a then some ([a], []) else none
  | [] => none

/-- `(unit){n} final-group`: `n` delimiter-terminated groups followed by
the final group, capturing the concatenation of everything consumed. -/
def parseMacN : Nat → (Char → Bool) → List Char → Option (List Char × List Char)
  | 0, _, cs => parseFinalGroup cs
  | n + 1, isDelim, cs =>
      (parseGroupDelim isDelim cs).bind fun ur =>
        (parseMacN n isDelim ur.2).bind fun mr =>
          some (ur.1 ++ mr.1, mr.2)

/-- The MAC capture group `([0-9a-fA-F]{1,2}D){5}[0-9a-fA-F]{1,2}`. -/
def parseMac (isDelim : Char → Bool) (cs : List Char) : Option (List Char × List Char) :=
  parseMacN 5 isDelim cs

/-- The Linux/macOS pattern after a candidate `\(`:
`(?P<ip>[\d\.]+)\)\s+at\s+(?P<mac>([0-9a-fA-F]{1,2}[:-]){5}[0-9a-fA-F]{1,2}).*`. -/
def parseAfterParen (cs : List Char) : Option (List Char × List Char) :=
  (takeWhile1 isIpChar cs).bind fun ipr =>
    (expectChar ')' ipr.2).bind fun r2 =>
      (takeWhile1 isPySpace r2).bind fun sr1 =>
        (expectChar 'a' sr1.2).bind fun r4 =>
          (expectChar 't' r4).bind fun r5 =>
            (takeWhile1 isPySpace r5).bind fun sr2 =>
              (parseMac linuxDelim sr2.2).bind fun macr =>
                some (ipr.1, macr.1)

/-- `linux_mac_pattern.match(line)`: the greedy leading `.*` tries the
rightmost `(` first and backtracks leftwards until the remainder of
the pattern matches. -/
def matchLinuxChars : List Char → Option (List Char × List Char)
  | [] => none
  | c :: rest =>
      match matchLinuxChars rest with
      | some v => some v
      | none => if c = '(' then parseAfterParen rest else none

/-- `windows_pattern.match(line)`:
`\s*(?P<ip>[\d\.]+)\s+(?P<mac>([0-9a-fA-F]{1,2}-){5}[0-9a-fA-F]{1,2}).*`,
anchored at the start of the line. -/
def matchWindowsChars (cs : List Char) : Option (List Char × List Char) :=
  (takeWhile1 isIpChar (cs.dropWhile isPySpace)).bind fun ipr =>
    (takeWhile1 isPySpace ipr.2).bind fun sr =>
      (parseMac winDelim sr.2).bind fun macr =>
        some (ipr.1, macr.1)

/-- One character of `.replace("-", ":").upper()`: replacing the
single-character pattern `-` and ASCII-uppercasing are both
character-wise, and `Char.toUpper` is exactly the ASCII upper map the
extracted characters (hex digits and delimiters) go through. -/
def normChar (c : Char) : Char :=
  (if c = '-' then ':' else c).toUpper

/-- Embedding of `mac.replace("-", ":").upper()`. -/
def normalizeMac (s : String) : String :=
  String.mk (s.data.map normChar)

/-- A row of the device table: `{"ip": ..., "mac": ...}`. -/
structure Device where
  ip : String
  mac : String
deriving DecidableEq, Repr

/-- One iteration of the parsing loop of `discover_devices`:
`linux_mac_pattern.match(line) or windows_pattern.match(line)`, and on
a match the device record with the normalized MAC. -/
def parseLine (line : String) : Option Device :=
  match matchLinuxChars line.data with
  | some (ip, mac) => some ⟨String.mk ip, normalizeMac (String.mk mac)⟩
  | none =>
      match matchWindowsChars line.data with
      | some (ip, mac) => some ⟨String.mk ip, normalizeMac (String.mk mac)⟩
      | none => none

/-- Embedding of the parsing phase of `discover_devices` over the
lines of the `arp -a` output (`output.splitlines()`); `none` models
the early return when `shutil.which("arp")` finds no binary. -/
def discoverDevices (arpAvailable : Bool) (lines : List String) : Option (List Device) :=
  if arpAvailable then some (lines.filterMap parseLine) else none

/-- Canonical-pair MAC shape: six groups of exactly two uppercase
hexadecimal digits joined by colons (17 characters in all). -/
def canonGroups : List Char → Bool
  | [a, b] => (48 ≤ a.toNat && a.toNat ≤ 57 || 65 ≤ a.toNat && a.toNat ≤ 70) &&
      (48 ≤ b.toNat && b.toNat ≤ 57 || 65 ≤ b.toNat && b.toNat ≤ 70)
  | a :: b :: ':' :: rest => (48 ≤ a.toNat && a.toNat ≤ 57 || 65 ≤ a.toNat && a.toNat ≤ 70) &&
      (48 ≤ b.toNat && b.toNat ≤ 57 || 65 ≤ b.toNat && b.toNat ≤ 70) && canonGroups rest
  | _ => false

/-- Uppercase hexadecimal digit (by ASCII code). -/
def isUpperHex (c : Char) : Bool :=
  (48 ≤ c.toNat && c.toNat ≤ 57) || (65 ≤ c.toNat && c.toNat ≤ 70)

/-- Whether a string is a MAC in canonical two-digit-pair form. -/
def isCanonicalMac (s : String) : Bool :=
  canonGroups s.data && s.length = 17

/-- Groups joined by `':'`, for stating the shape of normalized MACs. -/
def joinColon : List (List Char) → List Char
  | [] => []
  | [g] => g
  | g :: h :: t => g ++ ':' :: joinColon (h :: t)

/-! ## Concrete environments used in witnesses and counterexamples -/

/-- A host that resolves, with ports 7 and 9 open. -/
def scanEnvA : ScanEnv :=
  { resolve := fun h => if h = "lab-host" then some "10.0.0.5" else none
    connectEx := fun _ p _ => if p = 7 ∨ p = 9 then 0 else 111 }

/-- A host that resolves, with ports 2 and 4 open. -/
def scanEnvB : ScanEnv :=
  { resolve := fun h => if h = "lab-host" then some "10.0.0.5" else none
    connectEx := fun _ p _ => if p = 2 ∨ p = 4 then 0 else 111 }

/-- A host that resolves, with port 3 open. -/
def scanEnvC : ScanEnv :=
  { resolve := fun h => if h = "lab-host" then some "10.0.0.5" else none
    connectEx := fun _ p _ => if p = 3 then 0 else 111 }

/-- An environment in which no hostname resolves. -/
def scanEnvNoDns : ScanEnv :=
  { resolve := fun _ => none
    connectEx := fun _ _ _ => 111 }

/-- Counter snapshots that decreased between the two readings. -/
def trafficEnvDecreasing : TrafficEnv :=
  { hasPsutil := true, before := ⟨10, 0⟩, after := ⟨5, 20⟩ }

/-- Counter snapshots that increased between the two readings. -/
def trafficEnvIncreasing : TrafficEnv :=
  { hasPsutil := true, before := ⟨10, 40⟩, after := ⟨30, 100⟩ }

/-- The environment in which the psutil import failed. -/
def trafficEnvNoPsutil : TrafficEnv :=
  { hasPsutil := false, before := ⟨0, 0⟩, after := ⟨0, 0⟩ }

/-- A system without a `ping` binary and with nothing listening on
port 80 of the target. -/
def pingEnvNoBinary : PingEnv :=
  { system := "linux", run := fun _ _ => .fileNotFound, tcpConnectOk := fun _ _ _ => false }

/-- A system whose `ping` invocation always exceeds its timeout. -/
def pingEnvTimedOut : PingEnv :=
  { system := "linux", run := fun _ _ => .timedOut, tcpConnectOk := fun _ _ _ => true }

/-! ## Helper lemmas -/

/-- Membership in the submitted range is exactly the inclusive
interval. -/
theorem mem_portList {s e p : Int} : p ∈ portList s e ↔ s ≤ p ∧ p ≤ e := by
  simp only [portList, List.mem_map, List.mem_range]
  constructor
  · rintro ⟨i, hi, rfl⟩
    omega
  · rintro ⟨h1, h2⟩
    exact ⟨(p - s).toNat, by omega, by omega⟩

/-- Each port appears at most once in the submitted range. -/
theorem portList_nodup (s e : Int) : (portList s e).Nodup := by
  refine List.Nodup.map ?_ (List.nodup_range _)
  intro a b hab
  simp only at hab
  omega

/-- Collecting the per-port results filters the completion order down
to the ports whose connect attempt returned `0`. -/
theorem filterMap_scanSinglePort (env : ScanEnv) (ip : String) (t : Rat) (l : List Int) :
    l.filterMap (fun p => scanSinglePort env ip p t)
      = l.filter (fun p => decide (env.connectEx ip p t = 0)) := by
  unfold scanSinglePort
  induction l with
  | nil => rfl
  | cons a l ih =>
      simp only [List.filterMap_cons, List.filter_cons]
      by_cases h : env.connectEx ip a t = 0
      · simp [h, ih]
      · simp [h, ih]

/-! ## Claim theorems: traffic sampler -/

/-- C2 counterexample: with psutil present and a second counter
reading lower than the first (`bytes_sent` 10 → 5), the sampler
returns a negative sent delta (−5) instead of the zero the claim
requires, so the claim that a decreasing reading yields zero and that
no negative value is ever returned is false on the code. -/
theorem getNetworkTraffic_negative_delta_cex :
    ((getNetworkTraffic trafficEnvDecreasing 1).1).1 = -5 ∧
    ¬ (0 ≤ ((getNetworkTraffic trafficEnvDecreasing 1).1).1) := by
  decide

/-- C2 (amended): for every duration, with psutil available the
sampler returns the raw integer differences of the two counter
readings; the deltas are non-negative whenever the counters do not
decrease, but a decreasing reading produces a negative delta rather
than zero. -/
theorem getNetworkTraffic_raw_deltas (env : TrafficEnv) (d : Rat)
    (h : env.hasPsutil = true) :
    (getNetworkTraffic env d).1 =
      ((env.after.bytesSent : Int) - (env.before.bytesSent : Int),
       (env.after.bytesRecv : Int) - (env.before.bytesRecv : Int)) ∧
    (env.before.bytesSent ≤ env.after.bytesSent → 0 ≤ ((getNetworkTraffic env d).1).1) ∧
    (env.before.bytesRecv ≤ env.after.bytesRecv → 0 ≤ ((getNetworkTraffic env d).1).2) ∧
    (env.after.bytesSent < env.before.bytesSent → ((getNetworkTraffic env d).1).1 < 0) ∧
    (env.after.bytesRecv < env.before.bytesRecv → ((getNetworkTraffic env d).1).2 < 0) := by
  simp [getNetworkTraffic, h]

/-- Witness for the amended C2 theorem at a concrete environment with
increasing counters. -/
theorem getNetworkTraffic_raw_deltas_witness :
    (getNetworkTraffic trafficEnvIncreasing 1).1 =
      ((trafficEnvIncreasing.after.bytesSent : Int) - (trafficEnvIncreasing.before.bytesSent : Int),
       (trafficEnvIncreasing.after.bytesRecv : Int) - (trafficEnvIncreasing.before.bytesRecv : Int)) ∧
    (trafficEnvIncreasing.before.bytesSent ≤ trafficEnvIncreasing.after.bytesSent →
      0 ≤ ((getNetworkTraffic trafficEnvIncreasing 1).1).1) ∧
    (trafficEnvIncreasing.before.bytesRecv ≤ trafficEnvIncreasing.after.bytesRecv →
      0 ≤ ((getNetworkTraffic trafficEnvIncreasing 1).1).2) ∧
    (trafficEnvIncreasing.after.bytesSent < trafficEnvIncreasing.before.bytesSent →
      ((getNetworkTraffic trafficEnvIncreasing 1).1).1 < 0) ∧
    (trafficEnvIncreasing.after.bytesRecv < trafficEnvIncreasing.before.bytesRecv →
      ((getNetworkTraffic trafficEnvIncreasing 1).1).2 < 0) :=
  getNetworkTraffic_raw_deltas trafficEnvIncreasing 1 rfl

/-- C8: when psutil is unavailable the sampler returns `(0, 0)` for
every duration and prints the missing-psutil advisory, and that
advisory never appears on the measuring path, so "no data available"
is distinguishable from "zero traffic observed". -/
theorem getNetworkTraffic_no_psutil (env : TrafficEnv) (d : Rat)
    (h : env.hasPsutil = false) :
    (getNetworkTraffic env d).1 = (0, 0) ∧
    TrafficEvent.psutilMissingAdvisory ∈ (getNetworkTraffic env d).2 ∧
    (∀ (env₂ : TrafficEnv) (d₂ : Rat), env₂.hasPsutil = true →
      TrafficEvent.psutilMissingAdvisory ∉ (getNetworkTraffic env₂ d₂).2) := by
  refine ⟨by simp [getNetworkTraffic, h], by simp [getNetworkTraffic, h], ?_⟩
  intro env₂ d₂ h₂
  simp [getNetworkTraffic, h₂]

/-- Witness for the C8 theorem at a concrete psutil-less environment. -/
theorem getNetworkTraffic_no_psutil_witness :
    (getNetworkTraffic trafficEnvNoPsutil 0).1 = (0, 0) ∧
    TrafficEvent.psutilMissingAdvisory ∈ (getNetworkTraffic trafficEnvNoPsutil 0).2 ∧
    (∀ (env₂ : TrafficEnv) (d₂ : Rat), env₂.hasPsutil = true →
      TrafficEvent.psutilMissingAdvisory ∉ (getNetworkTraffic env₂ d₂).2) :=
  getNetworkTraffic_no_psutil trafficEnvNoPsutil 0 rfl

/-! ## Claim theorems: reachability probe -/

/-- C7 counterexample: when the `ping` binary is missing, the fallback
TCP probe runs with the literal 1-second timeout, not the configured
value (here 3), so the claim that every probe path applies the
configured timeout is false on the code. -/
theorem pingHost_fallback_timeout_cex :
    ¬ (∀ pr ∈ (pingHost pingEnvNoBinary "target.example" 3 1).2, pr.2 = (3 : Rat)) := by
  decide

/-- C7 (amended): every probe `ping_host` issues carries a hard
wall-clock timeout — the configured value on the system-ping probe and
the fixed 1-second timeout on the TCP fallback probe — and for every
host the probe returns unreachable (`false`) when the ping command
exceeds its timeout or exits with non-zero status; all modelled
outcome classes are handled, none escapes to the caller. -/
theorem pingHost_timeouts_and_failure (env : PingEnv) (host : String) (t : Rat)
    (count : Nat) :
    (∀ pr ∈ (pingHost env host t count).2,
        pr = (ProbeKind.systemPing, t) ∨ pr = (ProbeKind.tcpFallback, (1 : Rat))) ∧
    (env.run (pingCmd env.system count host) t = .timedOut →
        (pingHost env host t count).1 = false) ∧
    (env.run (pingCmd env.system count host) t = .calledProcessError →
        (pingHost env host t count).1 = false) := by
  unfold pingHost
  cases h : env.run (pingCmd env.system count host) t <;>
    simp [h] <;>
    by_cases htcp : env.tcpConnectOk host 80 1 <;>
    simp [htcp]

/-- Witness for the amended C7 theorem: on a system whose ping always
times out, the probe reports unreachable. -/
theorem pingHost_timeouts_and_failure_witness :
    (pingHost pingEnvTimedOut "target.example" 3 1).1 = false :=
  (pingHost_timeouts_and_failure pingEnvTimedOut "target.example" 3 1).2.1 rfl

/-! ## Claim theorems: port scan engine -/

/-- C1: for every host that resolves and every range with
`start_port ≤ end_port`, whatever order the probe futures complete in,
`scan_ports` returns a list of ports that lies inside the inclusive
range, has no duplicates, and is sorted ascending. -/
theorem scanPorts_subset_nodup_sorted (env : ScanEnv) (host ip : String) (s e : Int)
    (t : Rat) (c : Nat) (order : List Int)
    (hres : env.resolve host = some ip) (hse : s ≤ e)
    (hord : order.Perm (portList s e)) :
    (∀ p ∈ (scanPorts env host s e t c order).openPorts, s ≤ p ∧ p ≤ e) ∧
    (scanPorts env host s e t c order).openPorts.Nodup ∧
    (scanPorts env host s e t c order).openPorts.Sorted (· ≤ ·) := by
  have hout : (scanPorts env host s e t c order).openPorts
      = List.insertionSort (· ≤ ·)
          (order.filterMap (fun p => scanSinglePort env ip p t)) := by
    simp [scanPorts, hres]
  rw [hout, filterMap_scanSinglePort]
  have hperm : (List.insertionSort (· ≤ ·)
        (order.filter (fun p => decide (env.connectEx ip p t = 0)))).Perm
      (order.filter (fun p => decide (env.connectEx ip p t = 0))) :=
    List.perm_insertionSort _ _
  refine ⟨?_, ?_, List.sorted_insertionSort _ _⟩
  · intro p hp
    have hp₁ : p ∈ order.filter (fun p => decide (env.connectEx ip p t = 0)) :=
      hperm.mem_iff.mp hp
    have hp₂ : p ∈ order := List.mem_of_mem_filter hp₁
    exact mem_portList.mp (hord.subset hp₂)
  · have hnd : (order.filter (fun p => decide (env.connectEx ip p t = 0))).Nodup :=
      List.Nodup.filter _ (hord.nodup_iff.mpr (portList_nodup s e))
    exact hperm.symm.nodup hnd

/-- Witness for the C1 theorem: a resolving host, range 1–10, ports 7
and 9 open, futures completing in descending-port order. -/
theorem scanPorts_subset_nodup_sorted_witness :
    (∀ p ∈ (scanPorts scanEnvA "lab-host" 1 10 1 100
        [10, 9, 8, 7, 6, 5, 4, 3, 2, 1]).openPorts, 1 ≤ p ∧ p ≤ 10) ∧
    (scanPorts scanEnvA "lab-host" 1 10 1 100
        [10, 9, 8, 7, 6, 5, 4, 3, 2, 1]).openPorts.Nodup ∧
    (scanPorts scanEnvA "lab-host" 1 10 1 100
        [10, 9, 8, 7, 6, 5, 4, 3, 2, 1]).openPorts.Sorted (· ≤ ·) :=
  scanPorts_subset_nodup_sorted scanEnvA "lab-host" "10.0.0.5" 1 10 1 100
    [10, 9, 8, 7, 6, 5, 4, 3, 2, 1] rfl (by decide) (by decide)

/-- C5: for a fixed host, range, and per-port connect outcomes, the
returned port list is identical for any two worker-pool sizes ≥ 1 and
any two completion orders of the probe futures. -/
theorem scanPorts_order_concurrency_independent (env : ScanEnv) (host : String)
    (s e : Int) (t : Rat) (c₁ c₂ : Nat) (o₁ o₂ : List Int)
    (hc₁ : 1 ≤ c₁) (hc₂ : 1 ≤ c₂)
    (h₁ : o₁.Perm (portList s e)) (h₂ : o₂.Perm (portList s e)) :
    (scanPorts env host s e t c₁ o₁).openPorts
      = (scanPorts env host s e t c₂ o₂).openPorts := by
  cases hres : env.resolve host with
  | none => simp [scanPorts, hres]
  | some ip =>
      have hout : ∀ (c : Nat) (o : List Int), (scanPorts env host s e t c o).openPorts
          = List.insertionSort (· ≤ ·)
              (o.filter (fun p => decide (env.connectEx ip p t = 0))) := by
        intro c o
        rw [← filterMap_scanSinglePort]
        simp [scanPorts, hres]
      rw [hout c₁ o₁, hout c₂ o₂]
      refine List.eq_of_perm_of_sorted ?_
        (List.sorted_insertionSort _ _) (List.sorted_insertionSort _ _)
      exact (((List.perm_insertionSort _ _).trans (h₁.filter _)).trans
        ((h₂.filter _).symm)).trans (List.perm_insertionSort _ _).symm

/-- Witness for the C5 theorem: pool sizes 1 and 100 with opposite
completion orders give the same result list. -/
theorem scanPorts_order_concurrency_independent_witness :
    (scanPorts scanEnvB "lab-host" 1 5 1 1 [5, 4, 3, 2, 1]).openPorts
      = (scanPorts scanEnvB "lab-host" 1 5 1 100 [1, 2, 3, 4, 5]).openPorts :=
  scanPorts_order_concurrency_independent scanEnvB "lab-host" 1 5 1 1 100
    [5, 4, 3, 2, 1] [1, 2, 3, 4, 5] (by decide) (by decide) (by decide) (by decide)

/-- C3: a scan request with `start_port > end_port` is rejected by the
range validation with an error signal and an empty result before any
port is handed to the worker pool; and even `scan_ports` itself, called
directly on such a range, submits no port and returns an empty list. -/
theorem handleScan_rejects_inverted_range (env : ScanEnv) (host : String) (s e : Int)
    (order : List Int) (hhost : host ≠ "") (h : e < s) :
    handleScan env host (some (s, e)) order = .invalidRange ∧
    (handleScan env host (some (s, e)) order).result = [] ∧
    (handleScan env host (some (s, e)) order).scheduled = [] ∧
    portList s e = [] ∧
    (∀ (t : Rat) (c : Nat), (scanPorts env host s e t c []).openPorts = [] ∧
        (scanPorts env host s e t c []).submitted = []) := by
  have hh : handleScan env host (some (s, e)) order = .invalidRange := by
    have : s < 0 ∨ e < s := Or.inr h
    simp [handleScan, hhost, this]
  have hpl : portList s e = [] := by
    simp only [portList, List.map_eq_nil_iff, List.range_eq_nil]
    omega
  refine ⟨hh, by rw [hh]; rfl, by rw [hh]; rfl, hpl, ?_⟩
  intro t c
  cases hres : env.resolve host with
  | none => simp [scanPorts, hres]
  | some ip => simp [scanPorts, hres, hpl]

/-- Witness for the C3 theorem at the concrete inverted range 5 > 3. -/
theorem handleScan_rejects_inverted_range_witness :
    handleScan scanEnvC "lab-host" (some (5, 3)) [] = .invalidRange ∧
    (handleScan scanEnvC "lab-host" (some (5, 3)) []).result = [] ∧
    (handleScan scanEnvC "lab-host" (some (5, 3)) []).scheduled = [] ∧
    portList 5 3 = [] ∧
    (∀ (t : Rat) (c : Nat), (scanPorts scanEnvC "lab-host" 5 3 t c []).openPorts = [] ∧
        (scanPorts scanEnvC "lab-host" 5 3 t c []).submitted = []) :=
  handleScan_rejects_inverted_range scanEnvC "lab-host" 5 3 [] (by decide) (by decide)

/-- C4: for a host that does not resolve, `scan_ports` returns an
empty list, submits no port probe, and prints exactly the resolution
error; that event never occurs on a run whose host resolves, so a
resolution failure is distinguishable from a completed scan that found
zero open ports. -/
theorem scanPorts_unresolved_host (env : ScanEnv) (host : String) (s e : Int)
    (t : Rat) (c : Nat) (order : List Int) (h : env.resolve host = none) :
    (scanPorts env host s e t c order).openPorts = [] ∧
    (scanPorts env host s e t c order).submitted = [] ∧
    (scanPorts env host s e t c order).events = [ScanEvent.couldNotResolve host] ∧
    (∀ (host' ip : String) (s' e' : Int) (t' : Rat) (c' : Nat) (o' : List Int)
        (hh : String), env.resolve host' = some ip →
      ScanEvent.couldNotResolve hh ∉ (scanPorts env host' s' e' t' c' o').events) := by
  refine ⟨by simp [scanPorts, h], by simp [scanPorts, h], by simp [scanPorts, h], ?_⟩
  intro host' ip s' e' t' c' o' hh hres
  simp [scanPorts, hres]

/-- Witness for the C4 theorem in an environment where nothing
resolves. -/
theorem scanPorts_unresolved_host_witness :
    (scanPorts scanEnvNoDns "no-such-host" 1 10 1 100 []).openPorts = [] ∧
    (scanPorts scanEnvNoDns "no-such-host" 1 10 1 100 []).submitted = [] ∧
    (scanPorts scanEnvNoDns "no-such-host" 1 10 1 100 []).events
      = [ScanEvent.couldNotResolve "no-such-host"] ∧
    (∀ (host' ip : String) (s' e' : Int) (t' : Rat) (c' : Nat) (o' : List Int)
        (hh : String), scanEnvNoDns.resolve host' = some ip →
      ScanEvent.couldNotResolve hh ∉ (scanPorts scanEnvNoDns host' s' e' t' c' o').events) :=
  scanPorts_unresolved_host scanEnvNoDns "no-such-host" 1 10 1 100 [] rfl

/-! ## Helper lemmas: MAC extraction and normalization -/

/-- Normalizing any hex digit (as accepted by the MAC patterns) yields
an uppercase hex digit. -/
theorem normChar_upperHex_aux :
    ∀ n : Nat, n < 128 →
      ((48 ≤ n ∧ n ≤ 57) ∨ (97 ≤ n ∧ n ≤ 102) ∨ (65 ≤ n ∧ n ≤ 70)) →
      isUpperHex (normChar (Char.ofNat n)) = true := by
  decide

/-- Bound form of `isHexDigitChar` as a disjunction of code ranges. -/
theorem hexDigit_toNat (c : Char) (h : isHexDigitChar c = true) :
    (48 ≤ c.toNat ∧ c.toNat ≤ 57) ∨ (97 ≤ c.toNat ∧ c.toNat ≤ 102) ∨
      (65 ≤ c.toNat ∧ c.toNat ≤ 70) := by
  simp only [isHexDigitChar, Bool.or_eq_true, Bool.and_eq_true, decide_eq_true_eq] at h
  tauto

/-- `normChar` sends the characters matched by `[0-9a-fA-F]` to
uppercase hex digits. -/
theorem normChar_hex (c : Char) (h : isHexDigitChar c = true) :
    isUpperHex (normChar c) = true := by
  have h' := hexDigit_toNat c h
  have hb : c.toNat < 128 := by omega
  have := normChar_upperHex_aux c.toNat hb h'
  rwa [Char.ofNat_toNat] at this

/-- `normChar` sends both delimiters of the Linux/macOS pattern to a
colon. -/
theorem normChar_linuxDelim (c : Char) (h : linuxDelim c = true) : normChar c = ':' := by
  have h' : c = ':' ∨ c = '-' := by simpa [linuxDelim] using h
  rcases h' with h' | h' <;> subst h' <;> decide

/-- `normChar` sends the Windows delimiter to a colon. -/
theorem normChar_winDelim (c : Char) (h : winDelim c = true) : normChar c = ':' := by
  have h' : c = '-' := by simpa [winDelim] using h
  subst h'
  decide

/-- Shape of a successful delimiter-terminated group: one or two hex
digits followed by one delimiter character. -/
theorem parseGroupDelim_spec {d : Char → Bool} {cs u r : List Char}
    (h : parseGroupDelim d cs = some (u, r)) :
    ∃ g dc, u = g ++ [dc] ∧ (∀ x ∈ g, isHexDigitChar x = true) ∧
      (g.length = 1 ∨ g.length = 2) ∧ d dc = true := by
  match cs with
  | [] => simp [parseGroupDelim] at h
  | [a] => simp [parseGroupDelim] at h
  | [a, b] =>
      simp only [parseGroupDelim] at h
      split_ifs at h with h1
      · simp only [Bool.and_eq_true] at h1
        simp only [Option.some.injEq, Prod.mk.injEq] at h
        obtain ⟨h2, h3⟩ := h
        subst h2
        subst h3
        refine ⟨[a], b, rfl, ?_, Or.inl rfl, h1.2⟩
        intro x hx
        fin_cases hx
        exact h1.1
  | a :: b :: c :: rest =>
      simp only [parseGroupDelim] at h
      split_ifs at h with h1 h2
      · simp only [Bool.and_eq_true] at h1
        simp only [Option.some.injEq, Prod.mk.injEq] at h
        obtain ⟨h3, h4⟩ := h
        subst h3
        subst h4
        refine ⟨[a, b], c, rfl, ?_, Or.inr rfl, h1.2⟩
        intro x hx
        fin_cases hx
        · exact h1.1.1
        · exact h1.1.2
      · simp only [Bool.and_eq_true] at h2
        simp only [Option.some.injEq, Prod.mk.injEq] at h
        obtain ⟨h3, h4⟩ := h
        subst h3
        subst h4
        refine ⟨[a], b, rfl, ?_, Or.inl rfl, h2.2⟩
        intro x hx
        fin_cases hx
        exact h2.1

/-- Shape of the final group: one or two hex digits. -/
theorem parseFinalGroup_spec {cs m r : List Char}
    (h : parseFinalGroup cs = some (m, r)) :
    (∀ x ∈ m, isHexDigitChar x = true) ∧ (m.length = 1 ∨ m.length = 2) := by
  match cs with
  | [] => simp [parseFinalGroup] at h
  | [a] =>
      simp only [parseFinalGroup] at h
      split_ifs at h with h1
      · simp only [Option.some.injEq, Prod.mk.injEq] at h
        obtain ⟨h2, h3⟩ := h
        subst h2
        subst h3
        refine ⟨?_, Or.inl rfl⟩
        intro x hx
        fin_cases hx
        exact h1
  | a :: b :: rest =>
      simp only [parseFinalGroup] at h
      split_ifs at h with h1 h2
      · simp only [Bool.and_eq_true] at h1
        simp only [Option.some.injEq, Prod.mk.injEq] at h
        obtain ⟨h3, h4⟩ := h
        subst h3
        subst h4
        refine ⟨?_, Or.inr rfl⟩
        intro x hx
        fin_cases hx
        · exact h1.1
        · exact h1.2
      · simp only [Option.some.injEq, Prod.mk.injEq] at h
        obtain ⟨h3, h4⟩ := h
        subst h3
        subst h4
        refine ⟨?_, Or.inl rfl⟩
        intro x hx
        fin_cases hx
        exact h2

/-- Appending a group in front of a nonempty tail of groups inserts
one colon. -/
theorem joinColon_cons_of_ne {g : List Char} {gs : List (List Char)} (h : gs ≠ []) :
    joinColon (g :: gs) = g ++ ':' :: joinColon gs := by
  cases gs with
  | nil => exact absurd rfl h
  | cons a t => rfl

/-- Normalizing a successfully parsed MAC capture yields `n + 1`
groups of one or two uppercase hex digits joined by colons. -/
theorem parseMacN_norm {d : Char → Bool} (hd : ∀ c, d c = true → normChar c = ':') :
    ∀ (n : Nat) (cs m r : List Char), parseMacN n d cs = some (m, r) →
      ∃ gs : List (List Char), gs.length = n + 1 ∧
        (∀ g ∈ gs, (g.length = 1 ∨ g.length = 2) ∧ ∀ x ∈ g, isUpperHex x = true) ∧
        m.map normChar = joinColon gs := by
  intro n
  induction n with
  | zero =>
      intro cs m r h
      obtain ⟨hhex, hlen⟩ := parseFinalGroup_spec h
      refine ⟨[m.map normChar], rfl, ?_, rfl⟩
      intro g hg
      simp only [List.mem_singleton] at hg
      subst hg
      constructor
      · simpa using hlen
      · intro x hx
        simp only [List.mem_map] at hx
        obtain ⟨y, hy, rfl⟩ := hx
        exact normChar_hex y (hhex y hy)
  | succ n ih =>
      intro cs m r h
      simp only [parseMacN, Option.bind_eq_some] at h
      obtain ⟨⟨u, r₁⟩, hu, h⟩ := h
      obtain ⟨⟨m', r₂⟩, hm, h⟩ := h
      simp only [Option.some.injEq, Prod.mk.injEq] at h
      obtain ⟨h1, h2⟩ := h
      subst h1
      subst h2
      obtain ⟨gs, hlen, hgood, hmap⟩ := ih r₁ m' r₂ hm
      obtain ⟨g, dc, rfl, hghex, hglen, hdc⟩ := parseGroupDelim_spec hu
      have hgs : gs ≠ [] := by
        intro hgs
        rw [hgs] at hlen
        simp at hlen
      refine ⟨g.map normChar :: gs, by simpa using hlen, ?_, ?_⟩
      · intro g' hg'
        simp only [List.mem_cons] at hg'
        rcases hg' with rfl | hg'
        · constructor
          · simpa using hglen
          · intro x hx
            simp only [List.mem_map] at hx
            obtain ⟨y, hy, rfl⟩ := hx
            exact normChar_hex y (hghex y hy)
        · exact hgood g' hg'
      · rw [joinColon_cons_of_ne hgs]
        simp only [List.map_append, List.map_cons, List.map_nil, hd dc hdc, hmap,
          List.append_assoc, List.cons_append, List.nil_append]

/-- A Linux/macOS-pattern match extracts its MAC capture through
`parseMac` with the `[:-]` delimiter class. -/
theorem matchLinuxChars_mac :
    ∀ {cs ip mac : List Char}, matchLinuxChars cs = some (ip, mac) →
      ∃ r r', parseMac linuxDelim r = some (mac, r') := by
  intro cs
  induction cs with
  | nil => intro ip mac h; simp [matchLinuxChars] at h
  | cons c rest ih =>
      intro ip mac h
      cases hr : matchLinuxChars rest with
      | some v =>
          have hstep : matchLinuxChars (c :: rest) = some v := by
            unfold matchLinuxChars
            rw [hr]
          rw [hstep] at h
          simp only [Option.some.injEq] at h
          subst h
          exact ih hr
      | none =>
          have hstep : matchLinuxChars (c :: rest)
              = if c = '(' then parseAfterParen rest else none := by
            unfold matchLinuxChars
            rw [hr]
          rw [hstep] at h
          by_cases hc : c = '('
          · rw [if_pos hc] at h
            simp only [parseAfterParen, Option.bind_eq_some] at h
            obtain ⟨ipr, _, h⟩ := h
            obtain ⟨r2, _, h⟩ := h
            obtain ⟨sr1, _, h⟩ := h
            obtain ⟨r4, _, h⟩ := h
            obtain ⟨r5, _, h⟩ := h
            obtain ⟨sr2, _, h⟩ := h
            obtain ⟨macr, hmac, h⟩ := h
            simp only [Option.some.injEq, Prod.mk.injEq] at h
            exact ⟨sr2.2, macr.2, by rw [hmac, ← h.2]⟩
          · rw [if_neg hc] at h
            exact Option.noConfusion h

/-- A Windows-pattern match extracts its MAC capture through
`parseMac` with the `-` delimiter. -/
theorem matchWindowsChars_mac {cs ip mac : List Char}
    (h : matchWindowsChars cs = some (ip, mac)) :
    ∃ r r', parseMac winDelim r = some (mac, r') := by
  simp only [matchWindowsChars, Option.bind_eq_some] at h
  obtain ⟨ipr, _, h⟩ := h
  obtain ⟨sr, _, h⟩ := h
  obtain ⟨macr, hmac, h⟩ := h
  simp only [Option.some.injEq, Prod.mk.injEq] at h
  exact ⟨sr.2, macr.2, by rw [hmac, ← h.2]⟩

/-! ## Claim theorems: neighbor discovery -/

/-- C6 counterexample: the Windows-shape line
`"  192.168.1.7   1-2b-3c-4d-5e-6f   dynamic"` is accepted (single
hex digit in the first group), and its normalized MAC
`"1:2B:3C:4D:5E:6F"` is not composed of two-digit pairs, so the claim
that every extracted MAC normalizes to uppercase hexadecimal pairs is
false on the code. -/
theorem parseLine_not_pairs_cex :
    parseLine "  192.168.1.7   1-2b-3c-4d-5e-6f   dynamic"
      = some ⟨"192.168.1.7", "1:2B:3C:4D:5E:6F"⟩ ∧
    isCanonicalMac "1:2B:3C:4D:5E:6F" = false := by
  decide

/-- C6 (amended): neighbor discovery normalizes every extracted MAC to
uppercase hexadecimal groups joined by colons regardless of source
delimiter or case — each group keeping its one or two digits, without
zero-padding — and in particular the inputs `"1a-2b-3c-4d-5e-6f"` and
`"1A:2B:3C:4D:5E:6F"` both normalize to `"1A:2B:3C:4D:5E:6F"`, so
identical hardware addresses from different platform tools compare
equal. -/
theorem parseLine_mac_upper_colon (line : String) (dev : Device)
    (h : parseLine line = some dev) :
    (∃ gs : List (List Char), gs.length = 6 ∧
      (∀ g ∈ gs, (g.length = 1 ∨ g.length = 2) ∧ ∀ x ∈ g, isUpperHex x = true) ∧
      dev.mac.data = joinColon gs) ∧
    normalizeMac "1a-2b-3c-4d-5e-6f" = "1A:2B:3C:4D:5E:6F" ∧
    normalizeMac "1A:2B:3C:4D:5E:6F" = "1A:2B:3C:4D:5E:6F" := by
  refine ⟨?_, by decide, by decide⟩
  unfold parseLine at h
  cases hl : matchLinuxChars line.data with
  | some v =>
      rw [hl] at h
      obtain ⟨ip', mac'⟩ := v
      simp only [Option.some.injEq] at h
      obtain ⟨r, r', hm⟩ := matchLinuxChars_mac hl
      obtain ⟨gs, hlen, hgood, hmap⟩ := parseMacN_norm normChar_linuxDelim 5 r mac' r' hm
      refine ⟨gs, hlen, hgood, ?_⟩
      rw [← h]
      exact hmap
  | none =>
      rw [hl] at h
      cases hw : matchWindowsChars line.data with
      | some v =>
          rw [hw] at h
          obtain ⟨ip', mac'⟩ := v
          simp only [Option.some.injEq] at h
          obtain ⟨r, r', hm⟩ := matchWindowsChars_mac hw
          obtain ⟨gs, hlen, hgood, hmap⟩ := parseMacN_norm normChar_winDelim 5 r mac' r' hm
          refine ⟨gs, hlen, hgood, ?_⟩
          rw [← h]
          exact hmap
      | none =>
          rw [hw] at h
          exact Option.noConfusion h

/-- Witness for the amended C6 theorem at a concrete Linux-format ARP
line. -/
theorem parseLine_mac_upper_colon_witness :
    (∃ gs : List (List Char), gs.length = 6 ∧
      (∀ g ∈ gs, (g.length = 1 ∨ g.length = 2) ∧ ∀ x ∈ g, isUpperHex x = true) ∧
      (Device.mk "192.168.1.1" "00:1A:2B:3C:4D:5E").mac.data = joinColon gs) ∧
    normalizeMac "1a-2b-3c-4d-5e-6f" = "1A:2B:3C:4D:5E:6F" ∧
    normalizeMac "1A:2B:3C:4D:5E:6F" = "1A:2B:3C:4D:5E:6F" :=
  parseLine_mac_upper_colon
    "NCE-Campus (192.168.1.1) at 00:1a:2b:3c:4d:5e [ether] on en0"
    ⟨"192.168.1.1", "00:1A:2B:3C:4D:5E"⟩ (by decide)

/-- C9: each output line is tried against the two recognized shapes; a
line matching neither is silently skipped (discovery still succeeds),
and the device records keep the order of their source lines with no
deduplication or sorting imposed (a parsed line contributes its record
at its own position even when the same record occurred earlier). -/
theorem discoverDevices_line_handling (ls₁ ls₂ : List String) (bad : String)
    (hbad : parseLine bad = none) :
    discoverDevices true (ls₁ ++ bad :: ls₂)
      = some ((ls₁.filterMap parseLine) ++ (ls₂.filterMap parseLine)) ∧
    (∀ (l : String) (d : Device), parseLine l = some d →
      discoverDevices true (ls₁ ++ l :: ls₂)
        = some ((ls₁.filterMap parseLine) ++ d :: (ls₂.filterMap parseLine))) := by
  constructor
  · simp [discoverDevices, List.filterMap_append, List.filterMap_cons, hbad]
  · intro l d hd
    simp [discoverDevices, List.filterMap_append, List.filterMap_cons, hd]

/-- Witness for the C9 theorem: a Linux-format line, a garbage line,
and a Windows-format line parse to two records in line order with the
garbage line skipped. -/
theorem discoverDevices_line_handling_witness :
    discoverDevices true
        (["NCE-Campus (192.168.1.1) at 00:1a:2b:3c:4d:5e [ether] on en0"]
          ++ "Interface: 192.168.1.5 --- 0x4"
          :: ["192.168.1.1   00-1a-2b-3c-4d-5e   dynamic"])
      = some ((["NCE-Campus (192.168.1.1) at 00:1a:2b:3c:4d:5e [ether] on en0"].filterMap
            parseLine)
          ++ (["192.168.1.1   00-1a-2b-3c-4d-5e   dynamic"].filterMap parseLine)) :=
  (discoverDevices_line_handling
    ["NCE-Campus (192.168.1.1) at 00:1a:2b:3c:4d:5e [ether] on en0"]
    ["192.168.1.1   00-1a-2b-3c-4d-5e   dynamic"]
    "Interface: 192.168.1.5 --- 0x4" (by decide)).1

/-- C10: the MAC patterns accept one-digit groups and normalization
does not zero-pad: the Linux-format line with MAC
`1-2b-3c-4d-5e-6f` is extracted and normalizes to
`"1:2B:3C:4D:5E:6F"`, which is not composed of two-digit pairs. -/
theorem parseLine_single_digit_group :
    parseLine "myhost (192.168.1.9) at 1-2b-3c-4d-5e-6f [ether] on en0"
      = some ⟨"192.168.1.9", "1:2B:3C:4D:5E:6F"⟩ ∧
    normalizeMac "1-2b-3c-4d-5e-6f" = "1:2B:3C:4D:5E:6F" ∧
    isCanonicalMac "1:2B:3C:4D:5E:6F" = false := by
  decide

end NetworkTool
